import Mathlib

/-!
Verification of `generate_GV_properties.py` (Neural-HMM repository).

The script computes Global Variance statistics (mean and standard deviation of
predicted mel-spectrogram values) over a validation set.  We shallow-embed:

* the command-line startup logic of the `__main__` block (lines 110-147):
  the checkpoint-existence guard, the output-file overwrite guard, and the
  hard-coded write destination;
* the inference loop and the masked aggregation of `generate_gv`
  (lines 59-89).

Floating-point values are modelled as rationals (`ℚ`); the IEEE value `NaN`,
returned by `torch.mean` / `torch.std` on degenerate inputs, is modelled as
`none : Option ℚ`.  `torch.std`'s result is the square root of the unbiased
sample variance (PyTorch default `correction=1`); since the square root of a
rational need not be rational, the embedding carries the variance (the square
of the standard deviation).  Every claim made about the standard deviation in
this development is either an equality (which transfers through the square
root), the value zero (whose square root is zero), or `NaN` (modelled by
`none`), so nothing is lost by this representation.
-/

namespace GV

/-- Command-line arguments of the script (lines 110-136): `-c (--checkpoint_path)`,
`-f (--force)`, `-o (--output-file)`. -/
structure Args where
  checkpoint_path : String
  force : Bool
  output_file : String
deriving DecidableEq

/-- Outcome of the startup block (lines 138-147): either one of the two
`FileExistsError`s, or the script proceeds to compute and write the statistics
to a path. -/
inductive ScriptOutcome where
  | checkpointError
  | outputExistsError
  | writeTo (path : String)
deriving DecidableEq

/-- The startup logic of the `__main__` block (lines 138-147).  `fsExists`
models `os.path.exists`.  Python's truthiness of `args.checkpoint_path` in
`if args.checkpoint_path and not os.path.exists(args.checkpoint_path)` is the
string being non-empty.  The final write (line 147) targets the literal path
`"gv_parameters.pt"`, not `args.output_file`. -/
def scriptMain (args : Args) (fsExists : String → Bool) : ScriptOutcome :=
  if args.checkpoint_path ≠ "" ∧ fsExists args.checkpoint_path = false then
    ScriptOutcome.checkpointError
  else if fsExists args.output_file = true ∧ args.force = false then
    ScriptOutcome.outputExistsError
  else
    ScriptOutcome.writeTo "gv_parameters.pt"

/-- One time step of a mel-spectrogram: the values of the mel channels. -/
abbrev Frame := List ℚ

/-- A predicted mel-spectrogram: a variable-length list of frames (time ×
channels), as produced by `model.sample` and stored in `mel_outputs`. -/
abbrev Mel := List Frame

/-- The arithmetic mean of a list of values (the value `torch.mean` returns on
a non-empty tensor). -/
def meanVal (xs : List ℚ) : ℚ := xs.sum / (xs.length : ℚ)

/-- `torch.mean` (line 87): `NaN` on an empty tensor (modelled as `none`),
otherwise the arithmetic mean. -/
def torchMean (xs : List ℚ) : Option ℚ :=
  if xs.length = 0 then none else some (meanVal xs)

/-- Sum of squared deviations from the mean. -/
def sqDevSum (xs : List ℚ) : ℚ :=
  (xs.map (fun x => (x - meanVal xs) * (x - meanVal xs))).sum

/-- The square of `torch.std` (line 88): PyTorch's default is the unbiased
sample standard deviation (Bessel correction, `n - 1` divisor), which is `NaN`
on tensors with fewer than two elements (modelled as `none`). -/
def torchStdSq (xs : List ℚ) : Option ℚ :=
  if xs.length ≤ 1 then none else some (sqDevSum xs / ((xs.length : ℚ) - 1))

/-- Maximum observed sequence length, to which
`pad_sequence(mel_outputs, batch_first=True)` (line 80) pads. -/
def maxLen (mels : List Mel) : ℕ := (mels.map List.length).foldr max 0

/-- The trailing (channel) dimension `mel_outputs.shape[2]` of the padded
tensor; `torch.pad_sequence` requires it to be shared by all sequences, so it
is read off the first frame of the first sequence. -/
def numChannels (mels : List Mel) : ℕ := ((mels.headD []).headD []).length

/-- An all-zero padding frame with `c` channels (`pad_sequence` pads with the
scalar `0.0`). -/
def zeroFrame (c : ℕ) : Frame := List.replicate c 0

/-- Right-pad one sequence with zero frames to length `m`. -/
def padSeq (c m : ℕ) (s : Mel) : Mel := s ++ List.replicate (m - s.length) (zeroFrame c)

/-- `torch.nn.utils.rnn.pad_sequence(mel_outputs, batch_first=True)` (line 80):
every sequence is right-padded with zeros to the maximum observed length,
forming one dense array. -/
def pad_sequence (mels : List Mel) : List Mel :=
  mels.map (padSeq (numChannels mels) (maxLen mels))

/-- One row of the boolean length mask: time step `t` is valid iff `t < l`. -/
def maskRow (m l : ℕ) : List Bool := (List.range m).map fun t => decide (t < l)

/-- Modelled from the spec: `get_mask_from_len` (line 84) lives in
`src/utilities/functions.py`, which is not part of the provided sources.  Per
the spec's data model, the length mask is a "boolean array per utterance
marking valid (non-padded) time steps", i.e. row `i` is true exactly at the
time steps `t < lens[i]`; line 84 then broadcasts it across the channel
dimension via `.unsqueeze(2).expand(-1, -1, mel_outputs.shape[2])`. -/
def get_mask_from_len (lens : List ℕ) (m : ℕ) : List (List Bool) :=
  lens.map (maskRow m)

/-- Selection of one padded sequence by one mask row: the mask is broadcast
across the channel dimension, so a valid time step contributes its whole
frame and an invalid one contributes nothing. -/
def rowSelect (s : Mel) (mrow : List Bool) : List ℚ :=
  ((s.zip mrow).map fun p => if p.2 then p.1 else []).flatten

/-- `mel_outputs.masked_select(mask)` (lines 87-88): the elements of the
padded array at which the (channel-broadcast) mask is true, flattened in
row-major order. -/
def masked_select (x : List Mel) (mask : List (List Bool)) : List ℚ :=
  ((x.zip mask).map fun p => rowSelect p.1 p.2).flatten

/-- The masked selection computed by lines 80-88: pad the ragged collection,
build the mask from the per-utterance lengths, and select. -/
def gvSelection (mels : List Mel) (lens : List ℕ) : List ℚ :=
  masked_select (pad_sequence mels) (get_mask_from_len lens (maxLen mels))

/-- The aggregation of `generate_gv` (lines 80-89): `mean_gv` and (the square
of) `std_gv` over the masked selection. -/
def gvAggregate (mels : List Mel) (lens : List ℕ) : Option ℚ × Option ℚ :=
  (torchMean (gvSelection mels lens), torchStdSq (gvSelection mels lens))

/-- One batch of the validation loader, as consumed by `generate_gv`: the
padded token sequences `text_inputs` and the true text lengths
`text_lengths`.  (The mel targets, `max_len` and `output_lengths` of
`parse_batch` are unused by the loop.) -/
abbrev Batch := List (List ℤ) × List ℕ

/-- The sampling call of line 76,
`model.sample(text_inputs[i][: text_lengths[i]], text_lengths[i])`: the `i`-th
token sequence truncated to its true length.  Python's indexing is modelled
with `getD` (in every collated batch both lists have the batch length, so the
defaults are never read). -/
def sampleAt (sample : List ℤ → ℕ → Mel) (texts : List (List ℤ))
    (lens : List ℕ) (i : ℕ) : Mel :=
  sample ((texts.getD i []).take (lens.getD i 0)) (lens.getD i 0)

/-- The inner loop of `generate_gv` (lines 75-78): for
`i in range(len(text_inputs))`, sample and append the predicted sequence and
its length to the accumulators. -/
def gvLoopBatch (sample : List ℤ → ℕ → Mel) (b : Batch)
    (acc : List Mel × List ℕ) : List Mel × List ℕ :=
  (List.range b.1.length).foldl
    (fun a i =>
      (a.1 ++ [sampleAt sample b.1 b.2 i],
       a.2 ++ [(sampleAt sample b.1 b.2 i).length]))
    acc

/-- The outer loop of `generate_gv` (lines 69-78): iterate over the batches of
the validation loader, starting from empty accumulators. -/
def gvLoop (sample : List ℤ → ℕ → Mel) (batches : List Batch) :
    List Mel × List ℕ :=
  batches.foldl (fun a b => gvLoopBatch sample b a) ([], [])

/-- `generate_gv` (lines 59-89): run the sampling loop, then aggregate the
masked statistics.  The first component is `mean_gv`, the second the square
of `std_gv`. -/
def generate_gv (sample : List ℤ → ℕ → Mel) (batches : List Batch) :
    Option ℚ × Option ℚ :=
  gvAggregate (gvLoop sample batches).1 (gvLoop sample batches).2

/-- Spec-side definition (§4.4): the elements "selected by the mask", i.e.
for each utterance the frames within its per-utterance length, concatenated
in order — padded elements excluded. -/
def spec_valid_elements (mels : List Mel) (lens : List ℕ) : List ℚ :=
  ((mels.zip lens).map fun p => (p.1.take p.2).flatten).flatten

/-- Spec-side definition (§4.3): "for every utterance in every batch of the
validation set, invoke the model's sampling operation with that utterance's
token sequence truncated to its true (unpadded) length", accumulating the
predicted sequences in order. -/
def spec_sampled_outputs (sample : List ℤ → ℕ → Mel) (batches : List Batch) :
    List Mel :=
  (batches.map fun b => (b.1.zip b.2).map fun p => sample (p.1.take p.2) p.2).flatten

/-- Spec-side definition (§9): the population variance (`n` divisor), the
convention `torch.std` does NOT use. -/
def specPopVar (xs : List ℚ) : ℚ := sqDevSum xs / (xs.length : ℚ)

/-! ### Helper lemmas -/

theorem maskRow_zero (m : ℕ) : maskRow m 0 = List.replicate m false := by
  unfold maskRow
  have h : (fun t : ℕ => decide (t < 0)) = fun _ => false := by
    funext t
    simp
  rw [h, List.map_const', List.length_range]

theorem maskRow_succ (m l : ℕ) : maskRow (m + 1) (l + 1) = true :: maskRow m l := by
  unfold maskRow
  rw [List.range_succ_eq_map, List.map_cons, List.map_map]
  congr 1
  · simp
  · refine List.map_congr_left fun t _ => ?_
    show decide (t.succ < l + 1) = decide (t < l)
    rw [decide_eq_decide]
    exact Nat.succ_lt_succ_iff

theorem rowSelect_cons (a : Frame) (s : Mel) (b : Bool) (r : List Bool) :
    rowSelect (a :: s) (b :: r) = (if b then a else []) ++ rowSelect s r := by
  simp [rowSelect]

theorem rowSelect_replicate_false (s : Mel) (m : ℕ) :
    rowSelect s (List.replicate m false) = [] := by
  induction s generalizing m with
  | nil => simp [rowSelect]
  | cons a t ih =>
    cases m with
    | zero => simp [rowSelect]
    | succ k =>
      rw [List.replicate_succ, rowSelect_cons, ih k]
      simp

theorem padSeq_cons (c m : ℕ) (a : Frame) (t : Mel) :
    padSeq c (m + 1) (a :: t) = a :: padSeq c m t := by
  simp [padSeq, Nat.add_sub_add_right]

theorem rowSelect_pad (s : Mel) (l m c : ℕ) (hl : l ≤ s.length)
    (hm : s.length ≤ m) :
    rowSelect (padSeq c m s) (maskRow m l) = (s.take l).flatten := by
  induction s generalizing l m with
  | nil =>
    have hl0 : l = 0 := Nat.le_zero.mp hl
    subst hl0
    rw [maskRow_zero, rowSelect_replicate_false]
    simp
  | cons a t ih =>
    cases l with
    | zero =>
      rw [maskRow_zero, rowSelect_replicate_false]
      simp
    | succ l =>
      cases m with
      | zero => simp at hm
      | succ m =>
        rw [padSeq_cons, maskRow_succ, rowSelect_cons, if_pos rfl,
          ih l m (Nat.succ_le_succ_iff.mp hl) (Nat.succ_le_succ_iff.mp hm)]
        simp [List.take_succ_cons]

theorem length_le_maxLen (mels : List Mel) (s : Mel) (hs : s ∈ mels) :
    s.length ≤ maxLen mels := by
  induction mels with
  | nil => cases hs
  | cons a t ih =>
    rcases List.mem_cons.mp hs with h | h
    · subst h
      simp only [maxLen, List.map_cons, List.foldr_cons]
      exact Nat.le_max_left _ _
    · simp only [maxLen, List.map_cons, List.foldr_cons]
      exact le_trans (ih h) (Nat.le_max_right _ _)

theorem gvSelection_eq_takes (mels : List Mel) (lens : List ℕ)
    (h : ∀ p ∈ mels.zip lens, p.2 ≤ p.1.length) :
    gvSelection mels lens =
      ((mels.zip lens).map fun p => (p.1.take p.2).flatten).flatten := by
  unfold gvSelection masked_select pad_sequence get_mask_from_len
  rw [List.zip_map, List.map_map]
  congr 1
  refine List.map_congr_left fun p hp => ?_
  have h1 : p.1 ∈ mels := (List.of_mem_zip hp).1
  show rowSelect (padSeq (numChannels mels) (maxLen mels) p.1)
      (maskRow (maxLen mels) p.2) = (p.1.take p.2).flatten
  exact rowSelect_pad p.1 p.2 (maxLen mels) (numChannels mels) (h p hp)
    (length_le_maxLen mels p.1 h1)

theorem foldl_append_pair (f : ℕ → Mel) (idxs : List ℕ)
    (acc : List Mel × List ℕ) :
    idxs.foldl (fun a i => (a.1 ++ [f i], a.2 ++ [(f i).length])) acc =
      (acc.1 ++ idxs.map f, acc.2 ++ (idxs.map f).map List.length) := by
  induction idxs generalizing acc with
  | nil => simp
  | cons i t ih =>
    rw [List.foldl_cons, ih]
    simp

theorem mapRange_sampleAt (sample : List ℤ → ℕ → Mel) (texts : List (List ℤ))
    (lens : List ℕ) (h : texts.length = lens.length) :
    (List.range texts.length).map (sampleAt sample texts lens) =
      (texts.zip lens).map fun p => sample (p.1.take p.2) p.2 := by
  induction texts generalizing lens with
  | nil => simp
  | cons t ts ih =>
    cases lens with
    | nil => simp at h
    | cons l ls =>
      rw [List.length_cons, List.range_succ_eq_map, List.map_cons, List.map_map,
        List.zip_cons_cons, List.map_cons]
      congr 1
      rw [← ih ls (by simpa using h)]
      refine List.map_congr_left fun i _ => ?_
      show sampleAt sample (t :: ts) (l :: ls) i.succ = sampleAt sample ts ls i
      simp [sampleAt]

theorem gvLoopBatch_eq (sample : List ℤ → ℕ → Mel) (b : Batch)
    (acc : List Mel × List ℕ) (h : b.1.length = b.2.length) :
    gvLoopBatch sample b acc =
      (acc.1 ++ (b.1.zip b.2).map (fun p => sample (p.1.take p.2) p.2),
       acc.2 ++
         ((b.1.zip b.2).map (fun p => sample (p.1.take p.2) p.2)).map
           List.length) := by
  unfold gvLoopBatch
  rw [foldl_append_pair (sampleAt sample b.1 b.2), mapRange_sampleAt sample b.1 b.2 h]

theorem gvLoop_go (sample : List ℤ → ℕ → Mel) (batches : List Batch)
    (acc : List Mel × List ℕ) (h : ∀ b ∈ batches, b.1.length = b.2.length) :
    batches.foldl (fun a b => gvLoopBatch sample b a) acc =
      (acc.1 ++ spec_sampled_outputs sample batches,
       acc.2 ++ (spec_sampled_outputs sample batches).map List.length) := by
  induction batches generalizing acc with
  | nil => simp [spec_sampled_outputs]
  | cons b bs ih =>
    rw [List.foldl_cons, gvLoopBatch_eq sample b acc (h b (List.mem_cons_self b bs)),
      ih _ fun x hx => h x (List.mem_cons_of_mem b hx)]
    simp [spec_sampled_outputs, List.append_assoc]

theorem zip_pad_mem (c : ℕ) (mels : List Mel) (pads lens : List ℕ)
    (h : ∀ p ∈ mels.zip lens, p.2 ≤ p.1.length) :
    ∀ p ∈ (List.zipWith (fun s k => s ++ List.replicate k (zeroFrame c)) mels pads).zip lens,
      p.2 ≤ p.1.length := by
  induction mels generalizing pads lens with
  | nil =>
    intro p hp
    simp at hp
  | cons s ms ih =>
    intro p hp
    cases pads with
    | nil => simp at hp
    | cons k ks =>
      cases lens with
      | nil => simp at hp
      | cons l ls =>
        rw [List.zipWith_cons_cons, List.zip_cons_cons] at hp
        rcases List.mem_cons.mp hp with h1 | h1
        · subst h1
          have hl : l ≤ s.length := h (s, l) (by simp)
          calc l ≤ s.length := hl
            _ ≤ (s ++ List.replicate k (zeroFrame c)).length := by simp
        · exact ih ks ls (fun q hq => h q (by rw [List.zip_cons_cons]; exact List.mem_cons_of_mem _ hq)) p h1

theorem zip_pad_takes (c : ℕ) (mels : List Mel) (pads lens : List ℕ)
    (hp : pads.length = mels.length)
    (h : ∀ p ∈ mels.zip lens, p.2 ≤ p.1.length) :
    ((List.zipWith (fun s k => s ++ List.replicate k (zeroFrame c)) mels pads).zip lens).map
        (fun p => (p.1.take p.2).flatten) =
      (mels.zip lens).map fun p => (p.1.take p.2).flatten := by
  induction mels generalizing pads lens with
  | nil => simp
  | cons s ms ih =>
    cases pads with
    | nil => simp at hp
    | cons k ks =>
      cases lens with
      | nil => simp
      | cons l ls =>
        rw [List.zipWith_cons_cons, List.zip_cons_cons, List.zip_cons_cons,
          List.map_cons, List.map_cons]
        congr 1
        · have hl : l ≤ s.length := h (s, l) (by simp)
          simp [List.take_append_of_le_length hl]
        · exact ih ks ls (by simpa using hp)
            (fun q hq => h q (by rw [List.zip_cons_cons]; exact List.mem_cons_of_mem _ hq))

/-! ### Claim theorems -/

/-- Claim C4, counterexample: with `checkpoint_path = ""` and a file system on
which no path exists (so in particular the checkpoint path does not exist),
the script raises no error at all and proceeds to the write — refuting the
claim that a nonexistent checkpoint path always raises. -/
theorem scriptMain_empty_checkpoint_no_error :
    (fun _ : String => false) "" = false ∧
      scriptMain ⟨"", false, "out.pt"⟩ (fun _ => false) ≠
        ScriptOutcome.checkpointError := by
  constructor
  · rfl
  · decide

/-- Claim C4 (amended): the checkpoint guard fires exactly when the checkpoint
path is non-empty and does not exist; if that guard passes, the script raises
when the file named by `-o (--output-file)` exists and `--force` is absent;
if both guards pass (in particular whenever `--force` is supplied and the
checkpoint guard passes), the script proceeds and writes `gv_parameters.pt`,
overwriting it if present. -/
theorem scriptMain_guards (args : Args) (fsExists : String → Bool) :
    (args.checkpoint_path ≠ "" → fsExists args.checkpoint_path = false →
      scriptMain args fsExists = ScriptOutcome.checkpointError) ∧
    ((args.checkpoint_path = "" ∨ fsExists args.checkpoint_path = true) →
      fsExists args.output_file = true → args.force = false →
      scriptMain args fsExists = ScriptOutcome.outputExistsError) ∧
    ((args.checkpoint_path = "" ∨ fsExists args.checkpoint_path = true) →
      (fsExists args.output_file = false ∨ args.force = true) →
      scriptMain args fsExists = ScriptOutcome.writeTo "gv_parameters.pt") := by
  refine ⟨fun h1 h2 => ?_, fun h1 h2 h3 => ?_, fun h1 h2 => ?_⟩
  · simp [scriptMain, h1, h2]
  · rcases h1 with h1 | h1 <;> simp [scriptMain, h1, h2, h3]
  · rcases h1 with h1 | h1 <;> rcases h2 with h2 | h2 <;>
      simp [scriptMain, h1, h2]

/-- Witness for `scriptMain_guards`: all three branches instantiated at
concrete arguments and file systems. -/
theorem scriptMain_guards_witness :
    scriptMain ⟨"ck.ckpt", false, "o.pt"⟩ (fun _ => false) =
        ScriptOutcome.checkpointError ∧
      scriptMain ⟨"ck.ckpt", false, "o.pt"⟩ (fun _ => true) =
        ScriptOutcome.outputExistsError ∧
      scriptMain ⟨"ck.ckpt", true, "o.pt"⟩ (fun _ => true) =
        ScriptOutcome.writeTo "gv_parameters.pt" :=
  ⟨(scriptMain_guards ⟨"ck.ckpt", false, "o.pt"⟩ (fun _ => false)).1
      (by decide) rfl,
   (scriptMain_guards ⟨"ck.ckpt", false, "o.pt"⟩ (fun _ => true)).2.1
      (Or.inr rfl) rfl rfl,
   (scriptMain_guards ⟨"ck.ckpt", true, "o.pt"⟩ (fun _ => true)).2.2
      (Or.inr rfl) (Or.inr rfl)⟩

/-- Claim C5: whatever the arguments (in particular whatever value
`-o (--output-file)` holds) and whatever the file system, every run either
raises one of the two startup errors or writes to the hard-coded path
`gv_parameters.pt`; no other write destination is possible. -/
theorem scriptMain_write_path_fixed (args : Args) (fsExists : String → Bool) :
    scriptMain args fsExists = ScriptOutcome.checkpointError ∨
      scriptMain args fsExists = ScriptOutcome.outputExistsError ∨
      scriptMain args fsExists = ScriptOutcome.writeTo "gv_parameters.pt" := by
  unfold scriptMain
  split
  · exact Or.inl rfl
  · split
    · exact Or.inr (Or.inl rfl)
    · exact Or.inr (Or.inr rfl)

/-- Claim C8: the overwrite guard tests the path named by `-o (--output-file)`
while the write targets `gv_parameters.pt`; hence whenever the `-o` path does
not exist but `gv_parameters.pt` does, and the checkpoint guard passes, the
script proceeds without `--force` and without raising, writing over the
existing `gv_parameters.pt`. -/
theorem scriptMain_overwrites_without_force (args : Args)
    (fsExists : String → Bool)
    (hcp : args.checkpoint_path = "" ∨ fsExists args.checkpoint_path = true)
    (hout : fsExists args.output_file = false)
    (_hgv : fsExists "gv_parameters.pt" = true)
    (_hforce : args.force = false) :
    scriptMain args fsExists = ScriptOutcome.writeTo "gv_parameters.pt" := by
  rcases hcp with h | h <;> simp [scriptMain, h, hout]

/-- Witness for `scriptMain_overwrites_without_force`: the `-o` argument names
the nonexistent `other.pt`, `gv_parameters.pt` exists, no force flag, and the
script still proceeds to the write. -/
theorem scriptMain_overwrites_without_force_witness :
    scriptMain ⟨"ck.ckpt", false, "other.pt"⟩
        (fun s => s == "gv_parameters.pt" || s == "ck.ckpt") =
      ScriptOutcome.writeTo "gv_parameters.pt" :=
  scriptMain_overwrites_without_force ⟨"ck.ckpt", false, "other.pt"⟩
    (fun s => s == "gv_parameters.pt" || s == "ck.ckpt")
    (Or.inr (by decide)) (by decide) (by decide) rfl

/-- Claim C10: with an empty `--checkpoint_path` string the
checkpoint-existence guard is skipped entirely (Python's truthiness test on
the string fails), so the run never produces the checkpoint error: it either
raises the output-file error or proceeds to the write. -/
theorem scriptMain_empty_checkpoint_skips_guard (force : Bool)
    (output_file : String) (fsExists : String → Bool) :
    scriptMain ⟨"", force, output_file⟩ fsExists =
        ScriptOutcome.outputExistsError ∨
      scriptMain ⟨"", force, output_file⟩ fsExists =
        ScriptOutcome.writeTo "gv_parameters.pt" := by
  unfold scriptMain
  split
  · rename_i h
    exact absurd h.1 (by simp)
  · split
    · exact Or.inl rfl
    · exact Or.inr rfl

/-- Claim C1: the aggregation of `generate_gv` (pad the ragged predicted
sequences to the maximum observed length, build the boolean mask from the
per-utterance lengths, select by the mask) computes `mean_gv` and (the square
of) `std_gv` exactly over the valid elements — the frames within each
utterance's length — with padded elements excluded.  The hypothesis, that no
per-utterance length exceeds its sequence, holds by construction in
`generate_gv` where the lengths are `len(mel_output)`. -/
theorem gv_stats_over_masked_selection (mels : List Mel) (lens : List ℕ)
    (h : ∀ p ∈ mels.zip lens, p.2 ≤ p.1.length) :
    gvAggregate mels lens =
      (torchMean (spec_valid_elements mels lens),
       torchStdSq (spec_valid_elements mels lens)) := by
  unfold gvAggregate spec_valid_elements
  rw [gvSelection_eq_takes mels lens h]

/-- Witness for `gv_stats_over_masked_selection` at a concrete ragged
collection. -/
theorem gv_stats_over_masked_selection_witness :
    gvAggregate [[[(1 : ℚ)], [2]], [[3]]] [2, 1] =
      (torchMean (spec_valid_elements [[[(1 : ℚ)], [2]], [[3]]] [2, 1]),
       torchStdSq (spec_valid_elements [[[(1 : ℚ)], [2]], [[3]]] [2, 1])) :=
  gv_stats_over_masked_selection [[[(1 : ℚ)], [2]], [[3]]] [2, 1] (by decide)

/-- Claim C2: appending any amounts of zero right-padding to the predicted
mel sequences, while keeping the same valid elements and the same
per-utterance lengths, leaves `mean_gv` and `std_gv` unchanged: padding
elements never influence the result. -/
theorem gv_padding_invariant (mels : List Mel) (pads lens : List ℕ) (c : ℕ)
    (hp : pads.length = mels.length)
    (h : ∀ p ∈ mels.zip lens, p.2 ≤ p.1.length) :
    gvAggregate
        (List.zipWith (fun s k => s ++ List.replicate k (zeroFrame c)) mels pads)
        lens =
      gvAggregate mels lens := by
  unfold gvAggregate
  rw [gvSelection_eq_takes _ lens (zip_pad_mem c mels pads lens h),
    gvSelection_eq_takes mels lens h, zip_pad_takes c mels pads lens hp h]

/-- Witness for `gv_padding_invariant`: a collection of two utterances, the
first padded by two extra zero frames, yields the same statistics. -/
theorem gv_padding_invariant_witness :
    gvAggregate
        (List.zipWith (fun s k => s ++ List.replicate k (zeroFrame 1))
          [[[(1 : ℚ)], [2]], [[3]]] [2, 0])
        [2, 1] =
      gvAggregate [[[(1 : ℚ)], [2]], [[3]]] [2, 1] :=
  gv_padding_invariant [[[(1 : ℚ)], [2]], [[3]]] [2, 0] [2, 1] 1
    (by decide) (by decide)

/-- Claim C6: the accumulation loop of `generate_gv` invokes the sampling
operation once per utterance, on the utterance's token sequence truncated to
its true text length, and collects every predicted sequence and its length in
iteration order — it equals the spec's per-utterance map over all batches.
The hypothesis, that each collated batch carries as many length entries as
token sequences, holds for every batch produced by the collate function. -/
theorem gvLoop_matches_spec (sample : List ℤ → ℕ → Mel) (batches : List Batch)
    (h : ∀ b ∈ batches, b.1.length = b.2.length) :
    gvLoop sample batches =
      (spec_sampled_outputs sample batches,
       (spec_sampled_outputs sample batches).map List.length) := by
  unfold gvLoop
  rw [gvLoop_go sample batches ([], []) h]
  simp

/-- Witness for `gvLoop_matches_spec` at a concrete sampler and batch list. -/
theorem gvLoop_matches_spec_witness :
    gvLoop (fun t _ => t.map fun z => [(z : ℚ)]) [([[1, 2], [3, 4]], [1, 2])] =
      (spec_sampled_outputs (fun t _ => t.map fun z => [(z : ℚ)])
          [([[1, 2], [3, 4]], [1, 2])],
       (spec_sampled_outputs (fun t _ => t.map fun z => [(z : ℚ)])
           [([[1, 2], [3, 4]], [1, 2])]).map
         List.length) :=
  gvLoop_matches_spec (fun t _ => t.map fun z => [(z : ℚ)])
    [([[1, 2], [3, 4]], [1, 2])] (by decide)

/-- Claim C3, code evaluated at the failing input: when every utterance has
zero valid length (here two utterances whose sampled outputs are empty), the
masked selection is empty and `generate_gv` silently produces `NaN`
statistics (modelled as `none`) — no guard raises the explicit, descriptive
error the spec requires. -/
theorem gv_all_zero_length_silent_nan :
    generate_gv (fun _ _ => []) [([[0], [0]], [1, 1])] = (none, none) := by
  decide

/-- Claim C7: for a validation set of 3 utterances whose true mel lengths are
5, 3 and 7 and whose predicted values are all the constant `2.0`,
`generate_gv` returns `mean_gv = 2.0` and `std_gv = 0.0` (its square is `0`),
even though the first two outputs are padded to length 7 internally. -/
theorem gv_constant_output_stats :
    generate_gv (fun tokens _ => tokens.map fun _ => [(2 : ℚ)])
        [([[1, 1, 1, 1, 1, 0, 0], [1, 1, 1, 0, 0, 0, 0], [1, 1, 1, 1, 1, 1, 1]],
          [5, 3, 7])] =
      (some 2, some 0) := by
  have hsel :
      gvSelection
          (gvLoop (fun tokens _ => tokens.map fun _ => [(2 : ℚ)])
            [([[1, 1, 1, 1, 1, 0, 0], [1, 1, 1, 0, 0, 0, 0],
               [1, 1, 1, 1, 1, 1, 1]], [5, 3, 7])]).1
          (gvLoop (fun tokens _ => tokens.map fun _ => [(2 : ℚ)])
            [([[1, 1, 1, 1, 1, 0, 0], [1, 1, 1, 0, 0, 0, 0],
               [1, 1, 1, 1, 1, 1, 1]], [5, 3, 7])]).2 =
        List.replicate 15 (2 : ℚ) := by decide
  have hm : meanVal (List.replicate 15 (2 : ℚ)) = 2 := by
    norm_num [meanVal, List.sum_replicate, nsmul_eq_mul]
  have h1 : torchMean (List.replicate 15 (2 : ℚ)) = some 2 := by
    norm_num [torchMean, hm]
  have h2 : torchStdSq (List.replicate 15 (2 : ℚ)) = some 0 := by
    norm_num [torchStdSq, sqDevSum, hm, List.map_replicate, List.sum_replicate]
  unfold generate_gv gvAggregate
  rw [hsel, h1, h2]

/-- Claim C9: the second statistic of the aggregation is the unbiased sample
standard deviation (Bessel correction, `n - 1` divisor), not the population
one: a masked selection of exactly one element yields `NaN` (modelled `none`)
where the population convention would yield `0`, and on selections with at
least two elements the squared result is the population variance scaled by
`n / (n - 1)`. -/
theorem gv_std_unbiased (mels : List Mel) (lens : List ℕ) :
    ((gvSelection mels lens).length = 1 →
      (gvAggregate mels lens).2 = none ∧
        specPopVar (gvSelection mels lens) = 0) ∧
    (2 ≤ (gvSelection mels lens).length →
      (gvAggregate mels lens).2 =
        some (((gvSelection mels lens).length : ℚ) /
            (((gvSelection mels lens).length : ℚ) - 1) *
          specPopVar (gvSelection mels lens))) := by
  have key : ∀ xs : List ℚ,
      (xs.length = 1 → torchStdSq xs = none ∧ specPopVar xs = 0) ∧
      (2 ≤ xs.length →
        torchStdSq xs =
          some ((xs.length : ℚ) / ((xs.length : ℚ) - 1) * specPopVar xs)) := by
    intro xs
    constructor
    · intro h1
      obtain ⟨a, rfl⟩ := List.length_eq_one.mp h1
      refine ⟨by simp [torchStdSq], ?_⟩
      simp [specPopVar, sqDevSum, meanVal]
    · intro h2
      have hn : ¬(xs.length ≤ 1) := by omega
      have hne : ((xs.length : ℚ) - 1) ≠ 0 := by
        have h2q : (2 : ℚ) ≤ (xs.length : ℚ) := by exact_mod_cast h2
        linarith
      have h0 : ((xs.length : ℚ)) ≠ 0 := Nat.cast_ne_zero.mpr (by omega)
      simp only [torchStdSq, if_neg hn, specPopVar]
      congr 1
      field_simp
      ring
  constructor
  · intro h1
    exact ((key (gvSelection mels lens)).1 h1)
  · intro h2
    exact (key (gvSelection mels lens)).2 h2

/-- Witness for `gv_std_unbiased`: a singleton selection yields `none` where
the population variance is `0`, and a two-element selection satisfies the
Bessel-scaling identity. -/
theorem gv_std_unbiased_witness :
    ((gvAggregate [[[(2 : ℚ)]]] [1]).2 = none ∧
        specPopVar (gvSelection [[[(2 : ℚ)]]] [1]) = 0) ∧
      (gvAggregate [[[(2 : ℚ)], [4]]] [2]).2 =
        some (((gvSelection [[[(2 : ℚ)], [4]]] [2]).length : ℚ) /
            (((gvSelection [[[(2 : ℚ)], [4]]] [2]).length : ℚ) - 1) *
          specPopVar (gvSelection [[[(2 : ℚ)], [4]]] [2])) :=
  ⟨(gv_std_unbiased [[[(2 : ℚ)]]] [1]).1 (by decide),
   (gv_std_unbiased [[[(2 : ℚ)], [4]]] [2]).2 (by decide)⟩

end GV
